import Mathlib

/-
Verification of the WhatsApp ingestion / contact-reconciliation core of the
CRM server.  The TypeScript sources embedded here are
`src/server/src/utils/phone.ts` (phone normalization and variant search) and
`src/server/src/services/whatsapp-web.ts` (the two message event handlers,
the contact lookup, media saving and the send operation).

Modelling conventions:
* strings are represented as `List Char`; `str` converts a literal;
* the database is an explicit `Store` (lists of rows plus a fresh-id counter);
* asynchronous transport calls that a handler awaits (getChat, downloadMedia,
  getChatById) are supplied through an `Env` record, with `Except` encoding
  a call that throws;
* wall-clock timestamps (`new Date()`, `Date.now()`) are a single `now : Nat`
  carried by the environment.
-/

namespace Crm

/-- Character-list form of a string literal. -/
def str (s : String) : List Char := s.data

/-- `phone.replace(/[^0-9]/g, '')` : keep only the decimal digits. -/
def cleanDigits (s : List Char) : List Char := s.filter Char.isDigit

/-- JavaScript `haystack.includes(pat)` for strings. -/
def hasSubstr : List Char → List Char → Bool
  | [], pat => decide (pat = [])
  | a :: t, pat => if (a :: t).take pat.length = pat then true else hasSubstr t pat

/-- JavaScript `s.replace(/suf$/, '')` : drop one trailing occurrence of `suf`. -/
def dropSuffix (suf s : List Char) : List Char :=
  if suf.length ≤ s.length ∧ s.drop (s.length - suf.length) = suf then
    s.take (s.length - suf.length)
  else s

/-- `o?.field || ''` : an absent string becomes the empty string. -/
def jsStr (o : Option (List Char)) : List Char := o.getD []

/-- `a || b` on strings (empty is falsy). -/
def jsOr2 (a b : List Char) : List Char := if a ≠ [] then a else b

/-- `o?.field || null` : empty or absent collapses to `null`. -/
def jsNonempty (o : Option (List Char)) : Option (List Char) :=
  let n := jsStr o
  if n ≠ [] then some n else none

/-- `a?.x || a?.y || null` (used for `waContact?.name || waContact?.pushname`). -/
def jsFirstNonempty (a b : Option (List Char)) : Option (List Char) :=
  let x := jsStr a
  if x ≠ [] then some x else jsNonempty b

/-- First-occurrence deduplication, the behaviour of `[...new Set(l)]`. -/
def setDedupAux {α : Type} [DecidableEq α] (seen : List α) : List α → List α
  | [] => []
  | a :: t => if a ∈ seen then setDedupAux seen t else a :: setDedupAux (a :: seen) t

/-- `[...new Set(l)]`. -/
def setDedup {α : Type} [DecidableEq α] (l : List α) : List α := setDedupAux [] l

def mex52 : List Char := ['5', '2']
def mex521 : List Char := ['5', '2', '1']
def plus52 : List Char := ['+', '5', '2']
def plus521 : List Char := ['+', '5', '2', '1']

/-- `normalizePhoneToCanonical` from `src/server/src/utils/phone.ts`.
(`phone : string | null | undefined`: the null/undefined inputs are both
falsy, as is the empty string, so the first guard is modelled on the
character list directly.) -/
def normalizePhoneToCanonical (phone : List Char) : Option (List Char) :=
  if phone = [] ∨ phone = ['-'] then none
  else
    let cleaned := cleanDigits phone
    if cleaned = [] ∨ cleaned.length < 10 then none
    else if cleaned.length = 10 then some (plus52 ++ cleaned)
    else if cleaned.take 3 = mex521 ∧ cleaned.length = 13 then some (plus52 ++ cleaned.drop 3)
    else if cleaned.take 2 = mex52 ∧ cleaned.length = 12 then some ('+' :: cleaned)
    else if 11 ≤ cleaned.length then some ('+' :: cleaned)
    else none

/-- `getPhoneVariants` from `src/server/src/utils/phone.ts`. -/
def getPhoneVariants (phone : List Char) : List (List Char) :=
  let cleaned := cleanDigits phone
  if cleaned = [] ∨ cleaned.length < 10 then []
  else
    let last10 := cleaned.drop (cleaned.length - 10)
    let base := [plus52 ++ last10, mex52 ++ last10, plus521 ++ last10, mex521 ++ last10, last10]
    let v1 := if cleaned ∈ base then base else base ++ [cleaned]
    let v2 := if ('+' :: cleaned) ∈ v1 then v1 else v1 ++ ['+' :: cleaned]
    setDedup v2

/-- Media kind column of a conversation row. -/
inductive MediaType
  | image
  | audio
  | video
  | document
  | sticker
deriving DecidableEq, Repr

def mediaTypeName : MediaType → List Char
  | .image => str "image"
  | .audio => str "audio"
  | .video => str "video"
  | .document => str "document"
  | .sticker => str "sticker"

/-- Payload returned by `message.downloadMedia()`: `data` presence plus mimetype. -/
structure MediaFile where
  hasData : Bool
  mimetype : List Char
deriving DecidableEq

/-- The chat object obtained from the transport (`message.getChat()` /
`client.getChatById`): the fields the handlers read. -/
structure ChatInfo where
  contactNumber : Option (List Char)
  idUser : Option (List Char)
  name : Option (List Char)
deriving DecidableEq

/-- Per-event transport environment: results of the asynchronous calls a
handler may issue, plus the wall clock. -/
structure Env where
  now : Nat
  downloadMedia : Except Unit (Option MediaFile)
  saveFails : Bool
  getChat : Except Unit ChatInfo
  getChatById : Except Unit ChatInfo

/-- Contact row (timestamp strings modelled as the `now` tick). -/
structure Contact where
  id : Nat
  name : List Char
  email : List Char
  phone : Option (List Char)
  category : List Char
  leadSource : List Char
  tags : List Char
  score : Nat
  lastContactDate : Option Nat
  createdAt : Nat
  updatedAt : Nat
deriving DecidableEq

/-- Conversation row (`type` is a reserved word in Lean, hence `ctype`). -/
structure Conversation where
  contactId : Nat
  ctype : List Char
  content : List Char
  direction : List Char
  channel : List Char
  mediaType : Option MediaType
  mediaUrl : Option (List Char)
  createdAt : Nat
deriving DecidableEq

/-- Opportunity row. -/
structure Opportunity where
  contactId : Nat
  title : List Char
  value : Nat
  probability : Nat
  stage : List Char
  notes : List Char
  createdAt : Nat
  updatedAt : Nat
deriving DecidableEq

/-- The relational store visible to the handlers. -/
structure Store where
  contacts : List Contact
  conversations : List Conversation
  opportunities : List Opportunity
  nextId : Nat
deriving DecidableEq

/-- The raw transport message event, restricted to the fields the handlers
read.  `waContactNumber`/`waContactName`/`waContactPushname` are the fields of
`await message.getContact()`; `msgId` is `message.id._serialized` (empty list
models an absent id). -/
structure MsgEvent where
  fromMe : Bool
  msgFrom : List Char
  msgTo : List Char
  msgId : List Char
  hasMedia : Bool
  body : List Char
  waContactNumber : Option (List Char)
  waContactName : Option (List Char)
  waContactPushname : Option (List Char)
deriving DecidableEq

def statusBroadcast : List Char := str "status@broadcast"
def lidMarker : List Char := str "@lid"
def cUsSuffix : List Char := str "@c.us"
def gUsMarker : List Char := str "@g.us"
def entrante : List Char := str "entrante"
def saliente : List Char := str "saliente"
def whatsappStr : List Char := str "whatsapp"

def mimeToExtTable : List (List Char × List Char) :=
  [(str "image/jpeg", str "jpg"), (str "image/png", str "png"),
   (str "image/gif", str "gif"), (str "image/webp", str "webp"),
   (str "audio/ogg; codecs=opus", str "ogg"), (str "audio/mpeg", str "mp3"),
   (str "audio/mp4", str "m4a"), (str "video/mp4", str "mp4"),
   (str "application/pdf", str "pdf")]

/-- `mimetype.split('/')[1]` (`none` models the undefined element). -/
def splitSlashSecond (m : List Char) : Option (List Char) :=
  match m.dropWhile (fun c => c ≠ '/') with
  | [] => none
  | _ :: t => some (t.takeWhile (fun c => c ≠ '/'))

/-- `messageId.replace(/[^a-zA-Z0-9]/g, '_')`. -/
def sanitizeId (s : List Char) : List Char := s.map (fun c => if c.isAlphanum then c else '_')

/-- `saveMediaFile` from `whatsapp-web.ts`: classify the media kind from the
mimetype, build a collision-resistant filename, persist, and hand back the
media descriptor; any write failure is caught and becomes `none`. -/
def saveMediaFile (env : Env) (media : Option MediaFile) (messageId : List Char) :
    Option (MediaType × List Char) :=
  if env.saveFails then none
  else
    match media with
    | none => none
    | some m =>
      if m.hasData = false then none
      else
        let ext :=
          match (mimeToExtTable.find? (fun p => decide (p.1 = m.mimetype))).map Prod.snd with
          | some e => e
          | none =>
            match splitSlashSecond m.mimetype with
            | some e2 => if e2 ≠ [] then e2 else str "bin"
            | none => str "bin"
        let filename := Nat.toDigits 10 env.now ++ '_' :: sanitizeId messageId ++ '.' :: ext
        let mediaType :=
          if m.mimetype.take 6 = str "image/" then MediaType.image
          else if m.mimetype.take 6 = str "audio/" then MediaType.audio
          else if m.mimetype.take 6 = str "video/" then MediaType.video
          else MediaType.document
        some (mediaType, str "/api/media/" ++ filename)

/-- `findContactByPhone` from `whatsapp-web.ts`: probe the store once per
variant, first match wins. -/
def findContactByPhone (phone : List Char) (s : Store) : Option Contact :=
  (getPhoneVariants phone).findSome?
    (fun v => s.contacts.find? (fun c => decide (c.phone = some v)))

/-- `db.update(contacts).set({lastContactDate}).where(eq(contacts.id, cid))`. -/
def updateLastContact (cid now : Nat) (s : Store) : Store :=
  { s with contacts :=
      s.contacts.map (fun c => if c.id = cid then { c with lastContactDate := some now } else c) }

/-- The conversation row both handlers insert. -/
def mkConv (cid : Nat) (content dir : List Char) (mediaData : Option (MediaType × List Char))
    (now : Nat) : Conversation :=
  { contactId := cid, ctype := whatsappStr, content := content, direction := dir,
    channel := whatsappStr, mediaType := mediaData.map Prod.fst,
    mediaUrl := mediaData.map Prod.snd, createdAt := now }

/-- The auto-provisioned contact row (identical field values in both handlers). -/
def mkAutoContact (cid now : Nat) (contactName phone : List Char) : Contact :=
  { id := cid, name := contactName, email := phone ++ str "@whatsapp",
    phone := normalizePhoneToCanonical phone, category := str "prospecto",
    leadSource := str "otro", tags := str "[\x22WhatsApp\x22,\x22Auto-creado\x22]",
    score := 0, lastContactDate := none, createdAt := now, updatedAt := now }

/-- The auto-created pipeline opportunity. -/
def mkAutoOpportunity (cid now : Nat) (contactName notes : List Char) : Opportunity :=
  { contactId := cid, title := str "WhatsApp - " ++ contactName, value := 0,
    probability := 50, stage := str "Lead", notes := notes,
    createdAt := now, updatedAt := now }

/-- Resolution of media for an event: `message.downloadMedia()` inside its own
try/catch (a throw leaves `mediaData` null), then `saveMediaFile`. -/
def mediaDataOf (env : Env) (e : MsgEvent) : Option (MediaType × List Char) :=
  if e.hasMedia then
    match env.downloadMedia with
    | Except.error _ => none
    | Except.ok none => none
    | Except.ok (some m) =>
        saveMediaFile env (some m) (if e.msgId ≠ [] then e.msgId else Nat.toDigits 10 env.now)
  else none

/-- `message.body || (mediaData ? '[" + kind + "]' : '[mensaje sin contenido]')`. -/
def contentOf (e : MsgEvent) (mediaData : Option (MediaType × List Char)) : List Char :=
  if e.body ≠ [] then e.body
  else
    match mediaData with
    | some p => '[' :: mediaTypeName p.1 ++ [']']
    | none => str "[mensaje sin contenido]"

/-- Counterparty phone of an inbound event:
`waContact?.number || ''`, falling back to
`message.from.replace(/@c\.us$/, '').replace(/@lid$/, '')`. -/
def inboundResolvedPhone (e : MsgEvent) : List Char :=
  let waNum := jsStr e.waContactNumber
  if waNum ≠ [] then waNum else dropSuffix lidMarker (dropSuffix cUsSuffix e.msgFrom)

/-- The inbound handler: `client.on('message', ...)` in `whatsapp-web.ts`. -/
def handleMessage (env : Env) (e : MsgEvent) (s : Store) : Store :=
  if e.fromMe = true then s
  else if e.msgFrom = statusBroadcast then s
  else
    let phone := inboundResolvedPhone e
    let cleanedPhone := cleanDigits phone
    if cleanedPhone = [] ∨ cleanedPhone.length < 10 ∨ 15 < cleanedPhone.length then s
    else if hasSubstr phone gUsMarker = true then s
    else
      let mediaData := mediaDataOf env e
      let content := contentOf e mediaData
      match findContactByPhone phone s with
      | some contact =>
          updateLastContact contact.id env.now
            { s with conversations :=
                s.conversations ++ [mkConv contact.id content entrante mediaData env.now] }
      | none =>
          let waName := jsFirstNonempty e.waContactName e.waContactPushname
          let contactName := match waName with | some n => n | none => str "Nuevo - " ++ phone
          let newC := mkAutoContact s.nextId env.now contactName phone
          let s1 : Store := { s with contacts := s.contacts ++ [newC], nextId := s.nextId + 1 }
          let s2 : Store := { s1 with conversations :=
              s1.conversations ++ [mkConv newC.id content entrante mediaData env.now] }
          let s3 := updateLastContact newC.id env.now s2
          { s3 with opportunities := s3.opportunities ++
              [mkAutoOpportunity newC.id env.now contactName
                (str "Oportunidad creada automaticamente desde WhatsApp")] }

/-- Phone/chat resolution of the outbound handler.  `none` models the local
catch around `message.getChat()` in the `@lid` branch (the handler returns).
Otherwise the resolved phone is `chatContact?.number || chatObj?.id?.user || ''`
in the `@lid` case and `message.to.replace(/@c\.us$/, '')` in the plain case. -/
def outboundPhoneAndChat (env : Env) (e : MsgEvent) : Option (List Char × Option ChatInfo) :=
  if hasSubstr e.msgTo lidMarker = true then
    match env.getChat with
    | Except.error _ => none
    | Except.ok chat => some (jsOr2 (jsStr chat.contactNumber) (jsStr chat.idUser), some chat)
  else some (dropSuffix cUsSuffix e.msgTo, none)

/-- Body of the outbound handler after phone resolution. -/
def outboundContinue (env : Env) (e : MsgEvent) (phone : List Char)
    (chatObj : Option ChatInfo) (s : Store) : Store :=
  let cleanedPhone := cleanDigits phone
  if cleanedPhone = [] ∨ cleanedPhone.length < 10 ∨ 15 < cleanedPhone.length then s
  else if hasSubstr phone gUsMarker = true then s
  else
    let mediaData := mediaDataOf env e
    let content := contentOf e mediaData
    match findContactByPhone phone s with
    | some contact =>
        updateLastContact contact.id env.now
          { s with conversations :=
              s.conversations ++ [mkConv contact.id content saliente mediaData env.now] }
    | none =>
        let recipientName : Option (List Char) :=
          match chatObj with
          | some chat => jsNonempty chat.name
          | none =>
            match env.getChatById with
            | Except.error _ => none
            | Except.ok chat => jsNonempty chat.name
        let contactName := match recipientName with | some n => n | none => str "Nuevo - " ++ phone
        let newC := mkAutoContact s.nextId env.now contactName phone
        let s1 : Store := { s with contacts := s.contacts ++ [newC], nextId := s.nextId + 1 }
        let s2 : Store := { s1 with conversations :=
            s1.conversations ++ [mkConv newC.id content saliente mediaData env.now] }
        { s2 with opportunities := s2.opportunities ++
            [mkAutoOpportunity newC.id env.now contactName
              (str "Oportunidad creada automaticamente desde WhatsApp (saliente)")] }

/-- The outbound handler: `client.on('message_create', ...)` in `whatsapp-web.ts`. -/
def handleMessageCreate (env : Env) (e : MsgEvent) (s : Store) : Store :=
  if e.fromMe = false then s
  else if e.msgTo = statusBroadcast then s
  else
    match outboundPhoneAndChat env e with
    | none => s
    | some pc => outboundContinue env e pc.1 pc.2 s

/-- Session and transport context of `sendWhatsAppMessage`. -/
structure SendEnv where
  clientExists : Bool
  isReady : Bool
  getNumberId : Except (List Char) (Option (List Char))
  sendMessage : Except (List Char) Unit

/-- Transport calls issued by `sendWhatsAppMessage`, in order. -/
inductive TransportCall
  | getNumberId (phone : List Char)
  | sendMessage (serialized body : List Char)
deriving DecidableEq

structure SendResult where
  success : Bool
  error : Option (List Char)
deriving DecidableEq

/-- `sendWhatsAppMessage` from `whatsapp-web.ts`.  The function has access to
the store module but performs no database operation, so the store is passed
through; the list records the transport calls made. -/
def sendWhatsAppMessage (env : SendEnv) (phone message : List Char) (s : Store) :
    SendResult × List TransportCall × Store :=
  if env.clientExists = false ∨ env.isReady = false then
    ({ success := false, error := some (str "WhatsApp not connected") }, [], s)
  else
    let f0 := cleanDigits phone
    let formattedPhone := if f0.length = 10 then mex52 ++ f0 else f0
    match env.getNumberId with
    | Except.error msg =>
        ({ success := false, error := some msg }, [TransportCall.getNumberId formattedPhone], s)
    | Except.ok none =>
        ({ success := false, error := some (str "Numero no registrado en WhatsApp") },
         [TransportCall.getNumberId formattedPhone], s)
    | Except.ok (some nid) =>
        match env.sendMessage with
        | Except.error msg =>
            ({ success := false, error := some msg },
             [TransportCall.getNumberId formattedPhone, TransportCall.sendMessage nid message], s)
        | Except.ok _ =>
            ({ success := true, error := none },
             [TransportCall.getNumberId formattedPhone, TransportCall.sendMessage nid message], s)

/-! ### Helper lemmas -/

theorem mem_setDedupAux {α : Type} [DecidableEq α] (x : α) :
    ∀ (l seen : List α), x ∈ setDedupAux seen l ↔ (x ∈ l ∧ x ∉ seen) := by
  intro l
  induction l with
  | nil => intro seen; simp [setDedupAux]
  | cons a t ih =>
    intro seen
    by_cases h : a ∈ seen
    · rw [setDedupAux, if_pos h, ih]
      by_cases hx : x = a
      · subst hx; simp [h]
      · simp [hx]
    · rw [setDedupAux, if_neg h]
      by_cases hx : x = a
      · subst hx; simp [h]
      · simp [List.mem_cons, hx, ih]

theorem nodup_setDedupAux {α : Type} [DecidableEq α] :
    ∀ (l seen : List α), (setDedupAux seen l).Nodup := by
  intro l
  induction l with
  | nil => intro seen; simp [setDedupAux]
  | cons a t ih =>
    intro seen
    by_cases h : a ∈ seen
    · rw [setDedupAux, if_pos h]; exact ih seen
    · rw [setDedupAux, if_neg h]
      refine List.nodup_cons.mpr ⟨?_, ih (a :: seen)⟩
      intro hmem
      exact ((mem_setDedupAux a t (a :: seen)).mp hmem).2 (List.mem_cons_self a seen)

theorem mem_setDedup {α : Type} [DecidableEq α] (x : α) (l : List α) :
    x ∈ setDedup l ↔ x ∈ l := by
  rw [setDedup, mem_setDedupAux]; simp

theorem nodup_setDedup {α : Type} [DecidableEq α] (l : List α) : (setDedup l).Nodup :=
  nodup_setDedupAux l []

theorem setDedup_cons {α : Type} [DecidableEq α] (a : α) (l : List α) :
    setDedup (a :: l) = a :: setDedupAux [a] l := by
  rw [setDedup, setDedupAux, if_neg (List.not_mem_nil a)]

@[simp] theorem updateLastContact_convs (cid n : Nat) (s : Store) :
    (updateLastContact cid n s).conversations = s.conversations := rfl

@[simp] theorem updateLastContact_opps (cid n : Nat) (s : Store) :
    (updateLastContact cid n s).opportunities = s.opportunities := rfl

@[simp] theorem updateLastContact_contacts_length (cid n : Nat) (s : Store) :
    (updateLastContact cid n s).contacts.length = s.contacts.length := by
  simp [updateLastContact]

/-- If a pattern starts with a character that never occurs in `v`, then `v`
has no occurrence of the pattern. -/
theorem hasSubstr_eq_false {a : Char} {pat : List Char} (t0 : List Char)
    (hpat : pat = a :: t0) :
    ∀ (v : List Char), (∀ ch ∈ v, ch ≠ a) → hasSubstr v pat = false := by
  intro v
  induction v with
  | nil => intro _; subst hpat; simp [hasSubstr]
  | cons c v ih =>
    intro h
    subst hpat
    have hc : c ≠ a := h c (List.mem_cons_self c v)
    rw [hasSubstr, if_neg ?_]
    · exact ih (fun ch hch => h ch (List.mem_cons_of_mem _ hch))
    · intro heq
      rw [List.length_cons, List.take_succ_cons] at heq
      exact hc (List.head_eq_of_cons_eq heq)

theorem cleanDigits_of_digits {d : List Char} (hd : ∀ ch ∈ d, ch.isDigit = true) :
    cleanDigits d = d := List.filter_eq_self.mpr hd

/-- Canonicalization never yields a plus-less result: with at least ten
digits the result exists and starts with `+`. -/
theorem normalize_plus (p : List Char) (h : 10 ≤ (cleanDigits p).length) :
    ∃ r, normalizePhoneToCanonical p = some r ∧ r.take 1 = ['+'] := by
  have hne : p ≠ [] := by
    intro hp; rw [hp] at h; simp [cleanDigits] at h
  have hnd : p ≠ ['-'] := by
    intro hp
    rw [hp, show cleanDigits ['-'] = [] from by decide] at h
    simp at h
  simp only [normalizePhoneToCanonical]
  rw [if_neg (by simp [hne, hnd])]
  have h0 : ¬(cleanDigits p = [] ∨ (cleanDigits p).length < 10) := by
    simp only [not_or]
    refine ⟨?_, by omega⟩
    intro h'; rw [h'] at h; simp at h
  rw [if_neg h0]
  by_cases h10 : (cleanDigits p).length = 10
  · rw [if_pos h10]; exact ⟨_, rfl, rfl⟩
  · rw [if_neg h10]
    by_cases h13 : (cleanDigits p).take 3 = mex521 ∧ (cleanDigits p).length = 13
    · rw [if_pos h13]; exact ⟨_, rfl, rfl⟩
    · rw [if_neg h13]
      by_cases h12 : (cleanDigits p).take 2 = mex52 ∧ (cleanDigits p).length = 12
      · rw [if_pos h12]; exact ⟨_, rfl, rfl⟩
      · rw [if_neg h12, if_pos (show 11 ≤ (cleanDigits p).length by omega)]
        exact ⟨_, rfl, rfl⟩

theorem handleMessage_of_fromMe (env : Env) (e : MsgEvent) (s : Store)
    (h : e.fromMe = true) : handleMessage env e s = s := by
  rw [handleMessage, if_pos h]

theorem handleMessageCreate_of_not_fromMe (env : Env) (e : MsgEvent) (s : Store)
    (h : e.fromMe = false) : handleMessageCreate env e s = s := by
  rw [handleMessageCreate, if_pos h]

/-- The inbound handler appends at most one conversation row, always inbound. -/
theorem handleMessage_convs (env : Env) (e : MsgEvent) (s : Store) :
    (handleMessage env e s).conversations = s.conversations ∨
    ∃ c, (handleMessage env e s).conversations = s.conversations ++ [c] ∧
      c.direction = entrante := by
  simp only [handleMessage]
  split
  · exact Or.inl rfl
  split
  · exact Or.inl rfl
  split
  · exact Or.inl rfl
  split
  · exact Or.inl rfl
  split
  · exact Or.inr ⟨_, rfl, rfl⟩
  · exact Or.inr ⟨_, rfl, rfl⟩

/-- The outbound continuation appends at most one conversation row, always
outbound. -/
theorem outboundContinue_convs (env : Env) (e : MsgEvent) (phone : List Char)
    (chatObj : Option ChatInfo) (s : Store) :
    (outboundContinue env e phone chatObj s).conversations = s.conversations ∨
    ∃ c, (outboundContinue env e phone chatObj s).conversations = s.conversations ++ [c] ∧
      c.direction = saliente := by
  simp only [outboundContinue]
  split
  · exact Or.inl rfl
  split
  · exact Or.inl rfl
  split
  · exact Or.inr ⟨_, rfl, rfl⟩
  · exact Or.inr ⟨_, rfl, rfl⟩

/-- The outbound handler appends at most one conversation row, always outbound. -/
theorem handleMessageCreate_convs (env : Env) (e : MsgEvent) (s : Store) :
    (handleMessageCreate env e s).conversations = s.conversations ∨
    ∃ c, (handleMessageCreate env e s).conversations = s.conversations ++ [c] ∧
      c.direction = saliente := by
  simp only [handleMessageCreate]
  split
  · exact Or.inl rfl
  split
  · exact Or.inl rfl
  split
  · exact Or.inl rfl
  · exact outboundContinue_convs env e _ _ s

/-! ### Concrete fixtures used by witnesses and counterexamples -/

def sEmpty : Store := { contacts := [], conversations := [], opportunities := [], nextId := 1 }

def envBase : Env :=
  { now := 1700000000, downloadMedia := Except.ok none, saveFails := false,
    getChat := Except.error (), getChatById := Except.error () }

def eFromMe : MsgEvent :=
  { fromMe := true, msgFrom := str "5215512345678@c.us", msgTo := str "5215512345678@c.us",
    msgId := str "m0", hasMedia := false, body := str "hola",
    waContactNumber := none, waContactName := none, waContactPushname := none }

/-! ### Claims -/

/-- Claim C1: for every transport message event, exactly one of the two
registered handlers persists it: the inbound handler is a no-op when `fromMe`
is true, the outbound handler is a no-op when `fromMe` is false, and running
both handlers on the same event adds at most one conversation row, whose
direction is `saliente` exactly for `fromMe` events and `entrante` otherwise. -/
theorem c1_event_partition (env env' : Env) (e : MsgEvent) (s : Store) :
    (e.fromMe = true → handleMessage env e s = s) ∧
    (e.fromMe = false →
      handleMessageCreate env' e (handleMessage env e s) = handleMessage env e s) ∧
    (handleMessageCreate env' e (handleMessage env e s)).conversations.length
        ≤ s.conversations.length + 1 ∧
    (∀ c ∈ (handleMessageCreate env' e (handleMessage env e s)).conversations.drop
        s.conversations.length,
      c.direction = if e.fromMe = true then saliente else entrante) := by
  cases hMe : e.fromMe
  · have hskip : handleMessageCreate env' e (handleMessage env e s) = handleMessage env e s :=
      handleMessageCreate_of_not_fromMe env' e _ hMe
    refine ⟨fun h => absurd h (by simp), fun _ => hskip, ?_, ?_⟩
    · rw [hskip]
      rcases handleMessage_convs env e s with hc | ⟨c, hc, _⟩
      · rw [hc]; omega
      · rw [hc]; simp
    · rw [hskip]
      rcases handleMessage_convs env e s with hc | ⟨c, hc, hdir⟩
      · rw [hc, List.drop_length]; intro c hc'; simp at hc'
      · rw [hc, List.drop_left]
        intro c' hc'
        rw [List.mem_singleton] at hc'
        subst hc'
        rw [hdir]; simp
  · have hskip : handleMessage env e s = s := handleMessage_of_fromMe env e s hMe
    rw [hskip]
    refine ⟨fun _ => rfl, fun h => absurd h (by simp), ?_, ?_⟩
    · rcases handleMessageCreate_convs env' e s with hc | ⟨c, hc, _⟩
      · rw [hc]; omega
      · rw [hc]; simp
    · rcases handleMessageCreate_convs env' e s with hc | ⟨c, hc, hdir⟩
      · rw [hc, List.drop_length]; intro c hc'; simp at hc'
      · rw [hc, List.drop_left]
        intro c' hc'
        rw [List.mem_singleton] at hc'
        subst hc'
        rw [hdir]; simp

/-- Witness for C1 at a concrete `fromMe` event: the inbound handler leaves
the store untouched. -/
theorem c1_event_partition_check : handleMessage envBase eFromMe sEmpty = sEmpty :=
  (c1_event_partition envBase envBase eFromMe sEmpty).1 rfl

/-- Claim C9: `sendWhatsAppMessage` invoked while the client is absent or not
ready fails fast with `WhatsApp not connected` and issues no transport call;
and in every outcome the function itself writes no conversation row (the store
passes through unchanged). -/
theorem c9_send_not_connected (env : SendEnv) (phone message : List Char) (s : Store) :
    ((env.clientExists = false ∨ env.isReady = false) →
      sendWhatsAppMessage env phone message s =
        ({ success := false, error := some (str "WhatsApp not connected") }, [], s)) ∧
    (sendWhatsAppMessage env phone message s).2.2 = s := by
  constructor
  · intro h
    rw [sendWhatsAppMessage, if_pos h]
  · simp only [sendWhatsAppMessage]
    split
    · rfl
    split <;> try rfl
    split <;> rfl

def envDisconnected : SendEnv :=
  { clientExists := false, isReady := false,
    getNumberId := Except.ok none, sendMessage := Except.ok () }

/-- Witness for C9: a concrete disconnected send returns the structured
failure, makes no transport call and leaves the store unchanged. -/
theorem c9_send_not_connected_check :
    sendWhatsAppMessage envDisconnected (str "5512345678") (str "hola") sEmpty =
      ({ success := false, error := some (str "WhatsApp not connected") }, [], sEmpty) :=
  (c9_send_not_connected envDisconnected (str "5512345678") (str "hola") sEmpty).1 (Or.inl rfl)

/-- Claim C10: with 10 to 15 digits (indeed with any 10 or more digits)
canonicalization returns a non-null string starting with `+`; the trailing
null result is reachable only below 10 digits; and consequently every contact
auto-created by either handler (which only creates behind the digit-count
gate) stores a non-null phone. -/
theorem c10_gate_implies_phone (p : List Char) (env env' : Env) (e : MsgEvent) (s : Store) :
    (10 ≤ (cleanDigits p).length ∧ (cleanDigits p).length ≤ 15 →
      ∃ r, normalizePhoneToCanonical p = some r ∧ r.take 1 = ['+']) ∧
    (normalizePhoneToCanonical p = none → (cleanDigits p).length < 10) ∧
    (∀ c ∈ (handleMessage env e s).contacts.drop s.contacts.length, c.phone ≠ none) ∧
    (∀ c ∈ (handleMessageCreate env' e s).contacts.drop s.contacts.length, c.phone ≠ none) := by
  refine ⟨fun h => normalize_plus p h.1, ?_, ?_, ?_⟩
  · intro hnone
    by_contra hlt
    obtain ⟨r, hr, _⟩ := normalize_plus p (by omega)
    rw [hr] at hnone
    exact Option.noConfusion hnone
  · simp only [handleMessage]
    split
    next => rw [List.drop_length]; intro c hc'; simp at hc'
    next =>
    split
    next => rw [List.drop_length]; intro c hc'; simp at hc'
    next =>
    split
    next => rw [List.drop_length]; intro c hc'; simp at hc'
    next hgate =>
    split
    next => rw [List.drop_length]; intro c hc'; simp at hc'
    next =>
    split
    next contact hfind =>
      intro c hc'
      simp only [updateLastContact] at hc'
      rw [List.drop_eq_nil_of_le (by simp)] at hc'
      simp at hc'
    next hfind =>
      intro c hc'
      simp only [updateLastContact, List.map_append] at hc'
      rw [List.drop_left' (by simp)] at hc'
      simp only [List.map_cons, List.map_nil, List.mem_singleton] at hc'
      subst hc'
      push_neg at hgate
      obtain ⟨r, hr, _⟩ := normalize_plus (inboundResolvedPhone e) hgate.2.1
      simp [mkAutoContact, hr]
  · simp only [handleMessageCreate]
    split
    next => rw [List.drop_length]; intro c hc'; simp at hc'
    next =>
    split
    next => rw [List.drop_length]; intro c hc'; simp at hc'
    next =>
    split
    next => rw [List.drop_length]; intro c hc'; simp at hc'
    next pc hpc =>
      simp only [outboundContinue]
      split
      next => rw [List.drop_length]; intro c hc'; simp at hc'
      next hgate =>
      split
      next => rw [List.drop_length]; intro c hc'; simp at hc'
      next =>
      split
      next contact hfind =>
        intro c hc'
        simp only [updateLastContact] at hc'
        rw [List.drop_eq_nil_of_le (by simp)] at hc'
        simp at hc'
      next hfind =>
        intro c hc'
        dsimp only at hc'
        rw [List.drop_left] at hc'
        rw [List.mem_singleton] at hc'
        subst hc'
        push_neg at hgate
        obtain ⟨r, hr, _⟩ := normalize_plus pc.1 hgate.2.1
        simp [mkAutoContact, hr]

/-- Witness for C10: a concrete 13-digit historical-format phone passes the
gate and canonicalizes to a plus-prefixed value. -/
theorem c10_gate_implies_phone_check :
    ∃ r, normalizePhoneToCanonical (str "+5215512345678") = some r ∧ r.take 1 = ['+'] :=
  (c10_gate_implies_phone (str "+5215512345678") envBase envBase eFromMe sEmpty).1
    (by constructor <;> decide)

/-- Claim C4: for every 10-digit string `d`, all inputs whose digits are
`d`, `52`+`d` or `521`+`d` — i.e. `d` with or without the country prefix or
the historical mobile prefix, with or without a leading `+` and with or
without non-digit formatting characters — canonicalize to `+52`+`d`. -/
theorem c4_canonical_forms (d s : List Char)
    (_hd : ∀ ch ∈ d, ch.isDigit = true) (hlen : d.length = 10)
    (hs : cleanDigits s = d ∨ cleanDigits s = mex52 ++ d ∨ cleanDigits s = mex521 ++ d) :
    normalizePhoneToCanonical s = some (plus52 ++ d) := by
  have hlen10 : 10 ≤ (cleanDigits s).length := by
    rcases hs with h | h | h <;> simp [h, hlen, mex52, mex521]
  have hne : s ≠ [] := by
    intro hp; rw [hp] at hlen10; simp [cleanDigits] at hlen10
  have hnd : s ≠ ['-'] := by
    intro hp
    rw [hp, show cleanDigits ['-'] = [] from by decide] at hlen10
    simp at hlen10
  simp only [normalizePhoneToCanonical]
  rw [if_neg (by simp [hne, hnd])]
  rw [if_neg (by
    simp only [not_or]
    exact ⟨fun h' => by rw [h'] at hlen10; simp at hlen10, by omega⟩)]
  rcases hs with h | h | h
  · rw [h, if_pos hlen]
  · rw [h]
    have hl : (mex52 ++ d).length = 12 := by simp [mex52, hlen]
    rw [if_neg (by omega), if_neg (by rintro ⟨-, h13⟩; omega), if_pos ⟨rfl, hl⟩]
    simp [plus52, mex52]
  · rw [h]
    have hl : (mex521 ++ d).length = 13 := by simp [mex521, hlen]
    rw [if_neg (by omega), if_pos ⟨rfl, hl⟩]
    simp [plus52, mex521]

/-- Witness for C4: the historical mobile form `+5215512345678` canonicalizes
to `+525512345678`. -/
theorem c4_canonical_forms_check :
    normalizePhoneToCanonical (str "+5215512345678") = some (plus52 ++ str "5512345678") :=
  c4_canonical_forms (str "5512345678") (str "+5215512345678") (by decide) (by decide)
    (by decide)

/-- Claim C5: in both handlers, once the counterparty phone is resolved, a
digit count below 10 or above 15 makes the handler return with no store
write at all. -/
theorem c5_digit_gate (env : Env) (e : MsgEvent) (s : Store) :
    (((cleanDigits (inboundResolvedPhone e)).length < 10 ∨
        15 < (cleanDigits (inboundResolvedPhone e)).length) →
      handleMessage env e s = s) ∧
    (∀ p ci, outboundPhoneAndChat env e = some (p, ci) →
      ((cleanDigits p).length < 10 ∨ 15 < (cleanDigits p).length) →
      handleMessageCreate env e s = s) := by
  constructor
  · intro h
    simp only [handleMessage]
    split
    next => rfl
    next =>
    split
    next => rfl
    next =>
    rw [if_pos (by rcases h with h | h; exacts [Or.inr (Or.inl h), Or.inr (Or.inr h)])]
  · intro p ci hres h
    simp only [handleMessageCreate]
    split
    next => rfl
    next =>
    split
    next => rfl
    next =>
    rw [hres]
    show outboundContinue env e p ci s = s
    simp only [outboundContinue]
    rw [if_pos (by rcases h with h | h; exacts [Or.inr (Or.inl h), Or.inr (Or.inr h)])]

def eShortPhone : MsgEvent :=
  { fromMe := false, msgFrom := str "abc@c.us", msgTo := [], msgId := [],
    hasMedia := false, body := str "x", waContactNumber := some (str "123"),
    waContactName := none, waContactPushname := none }

/-- Witness for C5: an inbound event resolving to the 3-digit phone `123`
is discarded with no persistence. -/
theorem c5_digit_gate_check : handleMessage envBase eShortPhone sEmpty = sEmpty :=
  (c5_digit_gate envBase eShortPhone sEmpty).1 (Or.inl (by decide))

def eGroupContact : MsgEvent :=
  { fromMe := false, msgFrom := str "12345@g.us", msgTo := [], msgId := str "m1",
    hasMedia := false, body := str "hola", waContactNumber := some (str "5512345678"),
    waContactName := none, waContactPushname := none }

/-- Counterexample to C6 as stated: an inbound event originating from a group
chat (`message.from` carries the `@g.us` marker) for which the sender-contact
accessor returns a plain phone number is persisted by the inbound handler —
the store changes (a contact and a conversation row are created). -/
theorem c6_group_inbound_persisted :
    hasSubstr eGroupContact.msgFrom gUsMarker = true ∧
    handleMessage envBase eGroupContact sEmpty ≠ sEmpty := by decide

/-- Claim C6 (amended): the outbound handler never writes for an event
addressed to `status@broadcast`, and the inbound handler never writes for an
event from `status@broadcast`; the group-chat guard of either handler acts on
the *resolved counterparty phone string*: whenever that string still contains
`@g.us` (in particular whenever the inbound contact accessor yields no number
for a group event, and in the outbound non-LID path for any group-addressed
event) the handler performs no store write.  (As stated the claim fails: an
inbound group event whose contact accessor yields a plain number is
persisted, see the counterexample.) -/
theorem c6_broadcast_group_guards (env : Env) (e : MsgEvent) (s : Store) :
    (e.msgFrom = statusBroadcast → handleMessage env e s = s) ∧
    (hasSubstr (inboundResolvedPhone e) gUsMarker = true → handleMessage env e s = s) ∧
    (e.msgTo = statusBroadcast → handleMessageCreate env e s = s) ∧
    (∀ p ci, outboundPhoneAndChat env e = some (p, ci) →
      hasSubstr p gUsMarker = true → handleMessageCreate env e s = s) := by
  refine ⟨?_, ?_, ?_, ?_⟩
  · intro h
    simp [handleMessage, h]
  · intro h
    simp [handleMessage, h]
  · intro h
    simp [handleMessageCreate, h]
  · intro p ci hres h
    simp [handleMessageCreate, outboundContinue, hres, h]

def eGroupNoContact : MsgEvent :=
  { fromMe := false, msgFrom := str "12345678901@g.us", msgTo := [], msgId := str "m1",
    hasMedia := false, body := str "hola", waContactNumber := none,
    waContactName := none, waContactPushname := none }

/-- Witness for the amended C6: an inbound group event whose contact accessor
yields nothing resolves to a phone string still containing `@g.us` and is
skipped. -/
theorem c6_broadcast_group_guards_check :
    handleMessage envBase eGroupNoContact sEmpty = sEmpty :=
  (c6_broadcast_group_guards envBase eGroupNoContact sEmpty).2.1 (by decide)

/-- Claim C7: when an event carries media but the download or save fails
(throws or yields nothing), processing continues: the conversation row is
still inserted, with null media columns and content equal to the body when
present, else a non-empty placeholder.  Holds for both handlers. -/
theorem c7_media_failure_nonfatal (env : Env) (e : MsgEvent) (s : Store)
    (_hMedia : e.hasMedia = true)
    (hFail : env.downloadMedia = Except.error () ∨ env.downloadMedia = Except.ok none ∨
      env.saveFails = true ∨
      ∃ m, env.downloadMedia = Except.ok (some m) ∧ m.hasData = false) :
    (e.fromMe = false → e.msgFrom ≠ statusBroadcast →
      ¬(cleanDigits (inboundResolvedPhone e) = [] ∨
          (cleanDigits (inboundResolvedPhone e)).length < 10 ∨
          15 < (cleanDigits (inboundResolvedPhone e)).length) →
      hasSubstr (inboundResolvedPhone e) gUsMarker = false →
      ∃ cid, (handleMessage env e s).conversations = s.conversations ++
          [{ contactId := cid, ctype := whatsappStr,
             content := if e.body ≠ [] then e.body else str "[mensaje sin contenido]",
             direction := entrante, channel := whatsappStr,
             mediaType := none, mediaUrl := none, createdAt := env.now }] ∧
        (if e.body ≠ [] then e.body else str "[mensaje sin contenido]") ≠ []) ∧
    (∀ p ci, e.fromMe = true → e.msgTo ≠ statusBroadcast →
      outboundPhoneAndChat env e = some (p, ci) →
      ¬(cleanDigits p = [] ∨ (cleanDigits p).length < 10 ∨ 15 < (cleanDigits p).length) →
      hasSubstr p gUsMarker = false →
      ∃ cid, (handleMessageCreate env e s).conversations = s.conversations ++
          [{ contactId := cid, ctype := whatsappStr,
             content := if e.body ≠ [] then e.body else str "[mensaje sin contenido]",
             direction := saliente, channel := whatsappStr,
             mediaType := none, mediaUrl := none, createdAt := env.now }] ∧
        (if e.body ≠ [] then e.body else str "[mensaje sin contenido]") ≠ []) := by
  have hmd : mediaDataOf env e = none := by
    rcases hFail with h | h | h | ⟨m, hm, hd⟩
    · simp [mediaDataOf, h]
    · simp [mediaDataOf, h]
    · cases hdl : env.downloadMedia with
      | error u => simp [mediaDataOf, hdl]
      | ok o =>
        cases o with
        | none => simp [mediaDataOf, hdl]
        | some m => simp [mediaDataOf, hdl, saveMediaFile, h]
    · simp [mediaDataOf, hm, saveMediaFile, hd]
  have hnonempty : (if e.body ≠ [] then e.body else str "[mensaje sin contenido]") ≠ [] := by
    by_cases hb : e.body = []
    · rw [if_neg (by simp [hb])]; decide
    · rw [if_pos hb]; exact hb
  constructor
  · intro hMe hBc hGate hG
    cases hf : findContactByPhone (inboundResolvedPhone e) s with
    | some contact =>
      refine ⟨contact.id, ?_, hnonempty⟩
      simp [handleMessage, hMe, hBc, hGate, hG, hf, updateLastContact, hmd, mkConv, contentOf]
    | none =>
      refine ⟨s.nextId, ?_, hnonempty⟩
      simp [handleMessage, hMe, hBc, hGate, hG, hf, updateLastContact, hmd, mkConv, contentOf,
        mkAutoContact]
  · intro p ci hMe hBc hres hGate hG
    cases hf : findContactByPhone p s with
    | some contact =>
      refine ⟨contact.id, ?_, hnonempty⟩
      simp [handleMessageCreate, hMe, hBc, hres, outboundContinue, hGate, hG, hf,
        updateLastContact, hmd, mkConv, contentOf]
    | none =>
      refine ⟨s.nextId, ?_, hnonempty⟩
      simp [handleMessageCreate, hMe, hBc, hres, outboundContinue, hGate, hG, hf,
        updateLastContact, hmd, mkConv, contentOf, mkAutoContact]

def envMediaFail : Env := { envBase with downloadMedia := Except.error () }

def eMediaIn : MsgEvent :=
  { fromMe := false, msgFrom := str "5215512345678@c.us", msgTo := [], msgId := str "m9",
    hasMedia := true, body := [], waContactNumber := none,
    waContactName := none, waContactPushname := none }

/-- Witness for C7: an inbound media message whose download throws is still
persisted, with null media columns and the placeholder content. -/
theorem c7_media_failure_nonfatal_check :
    ∃ cid, (handleMessage envMediaFail eMediaIn sEmpty).conversations =
        sEmpty.conversations ++
          [{ contactId := cid, ctype := whatsappStr,
             content := if eMediaIn.body ≠ [] then eMediaIn.body
               else str "[mensaje sin contenido]",
             direction := entrante, channel := whatsappStr,
             mediaType := none, mediaUrl := none, createdAt := envMediaFail.now }] ∧
      (if eMediaIn.body ≠ [] then eMediaIn.body else str "[mensaje sin contenido]") ≠ [] :=
  (c7_media_failure_nonfatal envMediaFail eMediaIn sEmpty rfl (Or.inl rfl)).1 rfl
    (by decide) (by decide) (by decide)

/-- Counterexample to C8 as stated: the returned list contains the
digit-stripped input, not "the raw input string exactly as given" — for the
10-digit input `55-1234-5678` (formatting dashes) the raw string is absent
from its own variant list. -/
theorem c8_raw_not_included :
    10 ≤ (cleanDigits (str "55-1234-5678")).length ∧
    (str "55-1234-5678") ∉ getPhoneVariants (str "55-1234-5678") := by decide

/-- Claim C8 (amended): for every phone string with at least 10 digits,
`getPhoneVariants` returns a deduplicated list containing the canonical
`+52`-form, that form without `+`, the historical mobile form with and
without `+`, the bare last-10-digits form, and the *digit-stripped* input
with and without a leading `+` (the raw input itself is included only up to
stripping of non-digit characters, see the counterexample). -/
theorem c8_variant_coverage (p : List Char) (h10 : 10 ≤ (cleanDigits p).length) :
    plus52 ++ (cleanDigits p).drop ((cleanDigits p).length - 10) ∈ getPhoneVariants p ∧
    mex52 ++ (cleanDigits p).drop ((cleanDigits p).length - 10) ∈ getPhoneVariants p ∧
    plus521 ++ (cleanDigits p).drop ((cleanDigits p).length - 10) ∈ getPhoneVariants p ∧
    mex521 ++ (cleanDigits p).drop ((cleanDigits p).length - 10) ∈ getPhoneVariants p ∧
    (cleanDigits p).drop ((cleanDigits p).length - 10) ∈ getPhoneVariants p ∧
    cleanDigits p ∈ getPhoneVariants p ∧
    ('+' :: cleanDigits p) ∈ getPhoneVariants p ∧
    (getPhoneVariants p).Nodup := by
  have hne : ¬(cleanDigits p = [] ∨ (cleanDigits p).length < 10) := by
    simp only [not_or]
    exact ⟨fun h' => by rw [h'] at h10; simp at h10, by omega⟩
  simp only [getPhoneVariants]
  rw [if_neg hne]
  set cleaned := cleanDigits p with hcl
  set last10 := cleaned.drop (cleaned.length - 10) with hl10
  set base : List (List Char) :=
    [plus52 ++ last10, mex52 ++ last10, plus521 ++ last10, mex521 ++ last10, last10] with hbase
  set v1 := if cleaned ∈ base then base else base ++ [cleaned] with hv1
  set v2 := if ('+' :: cleaned) ∈ v1 then v1 else v1 ++ ['+' :: cleaned] with hv2
  have hsub1 : ∀ x, x ∈ base → x ∈ v1 := by
    intro x hx
    rw [hv1]
    split
    · exact hx
    · exact List.mem_append_left _ hx
  have hclmem : cleaned ∈ v1 := by
    rw [hv1]
    split
    next h => exact h
    next => exact List.mem_append_right _ (List.mem_singleton_self _)
  have hsub2 : ∀ x, x ∈ v1 → x ∈ v2 := by
    intro x hx
    rw [hv2]
    split
    · exact hx
    · exact List.mem_append_left _ hx
  have hplus : ('+' :: cleaned) ∈ v2 := by
    rw [hv2]
    split
    next h => exact h
    next => exact List.mem_append_right _ (List.mem_singleton_self _)
  refine ⟨?_, ?_, ?_, ?_, ?_, ?_, ?_, nodup_setDedup _⟩
  · rw [mem_setDedup]; exact hsub2 _ (hsub1 _ (by rw [hbase]; simp))
  · rw [mem_setDedup]; exact hsub2 _ (hsub1 _ (by rw [hbase]; simp))
  · rw [mem_setDedup]; exact hsub2 _ (hsub1 _ (by rw [hbase]; simp))
  · rw [mem_setDedup]; exact hsub2 _ (hsub1 _ (by rw [hbase]; simp))
  · rw [mem_setDedup]; exact hsub2 _ (hsub1 _ (by rw [hbase]; simp))
  · rw [mem_setDedup]; exact hsub2 _ hclmem
  · rw [mem_setDedup]; exact hplus

/-- Witness for the amended C8 at the historical-format input
`5215512345678`. -/
theorem c8_variant_coverage_check :
    cleanDigits (str "5215512345678") ∈ getPhoneVariants (str "5215512345678") ∧
    (getPhoneVariants (str "5215512345678")).Nodup :=
  ⟨(c8_variant_coverage (str "5215512345678") (by decide)).2.2.2.2.2.1,
   (c8_variant_coverage (str "5215512345678") (by decide)).2.2.2.2.2.2.2⟩

theorem cleanDigits_append (a b : List Char) :
    cleanDigits (a ++ b) = cleanDigits a ++ cleanDigits b := by
  simp [cleanDigits]

theorem cleanDigits_plus_cons (l : List Char) :
    cleanDigits ('+' :: l) = cleanDigits l := by
  show List.filter Char.isDigit ('+' :: l) = List.filter Char.isDigit l
  rw [List.filter_cons]
  simp

/-- Claim C3: if a contact stored with the canonical phone `+52`+`d` exists,
an incoming event whose resolved raw phone is any recognized variant of the
same number (with or without `+`, with or without the `52`/`521` prefix, or
the bare 10 digits) finds that contact via variant probing and inserts no
second contact. -/
theorem c3_variant_reuse (env : Env) (e : MsgEvent) (s : Store) (d v : List Char) (c : Contact)
    (hd : ∀ ch ∈ d, ch.isDigit = true) (hlen : d.length = 10)
    (hfind : s.contacts.find? (fun c' => decide (c'.phone = some (plus52 ++ d))) = some c)
    (hv : v = d ∨ v = mex52 ++ d ∨ v = mex521 ++ d ∨
          v = '+' :: d ∨ v = '+' :: (mex52 ++ d) ∨ v = '+' :: (mex521 ++ d))
    (hMe : e.fromMe = false) (hBc : e.msgFrom ≠ statusBroadcast)
    (hNum : e.waContactNumber = some v) :
    findContactByPhone v s = some c ∧
    (handleMessage env e s).contacts.length = s.contacts.length := by
  have hdclean : cleanDigits d = d := cleanDigits_of_digits hd
  have h52 : cleanDigits mex52 = mex52 := by decide
  have h521 : cleanDigits mex521 = mex521 := by decide
  have hclean : cleanDigits v = d ∨ cleanDigits v = mex52 ++ d ∨ cleanDigits v = mex521 ++ d := by
    rcases hv with rfl | rfl | rfl | rfl | rfl | rfl
    · exact Or.inl hdclean
    · exact Or.inr (Or.inl (by rw [cleanDigits_append, h52, hdclean]))
    · exact Or.inr (Or.inr (by rw [cleanDigits_append, h521, hdclean]))
    · exact Or.inl (by rw [cleanDigits_plus_cons, hdclean])
    · exact Or.inr (Or.inl (by rw [cleanDigits_plus_cons, cleanDigits_append, h52, hdclean]))
    · exact Or.inr (Or.inr (by rw [cleanDigits_plus_cons, cleanDigits_append, h521, hdclean]))
  have hlenv : (cleanDigits v).length = 10 ∨ (cleanDigits v).length = 12 ∨
      (cleanDigits v).length = 13 := by
    rcases hclean with h | h | h <;> simp [h, hlen, mex52, mex521]
  have hgate10 : ¬(cleanDigits v = [] ∨ (cleanDigits v).length < 10) := by
    rcases hlenv with h | h | h <;>
      exact not_or.mpr ⟨fun h' => by rw [h'] at h; simp at h, by omega⟩
  have hlast : (cleanDigits v).drop ((cleanDigits v).length - 10) = d := by
    rcases hclean with h | h | h
    · rw [h, hlen]; simp
    · have hm : (mex52 ++ d).length - 10 = mex52.length := by simp [mex52, hlen]
      rw [h, hm, List.drop_left]
    · have hm : (mex521 ++ d).length - 10 = mex521.length := by simp [mex521, hlen]
      rw [h, hm, List.drop_left]
  have hfind1 : findContactByPhone v s = some c := by
    rw [findContactByPhone]
    have hvar : ∃ rest, getPhoneVariants v = (plus52 ++ d) :: rest := by
      simp only [getPhoneVariants]
      rw [if_neg hgate10, hlast]
      split
      · split
        · exact ⟨_, setDedup_cons _ _⟩
        · exact ⟨_, setDedup_cons _ _⟩
      · split
        · exact ⟨_, setDedup_cons _ _⟩
        · exact ⟨_, setDedup_cons _ _⟩
    obtain ⟨rest, hvar⟩ := hvar
    rw [hvar, List.findSome?_cons, hfind]
  refine ⟨hfind1, ?_⟩
  have hvne : v ≠ [] := by
    rcases hv with rfl | rfl | rfl | rfl | rfl | rfl <;> intro h <;>
      first
        | simp [mex52, mex521] at h
        | (rw [h] at hlen; simp at hlen)
  have hres : inboundResolvedPhone e = v := by
    rw [inboundResolvedPhone, hNum]
    simp [jsStr, hvne]
  have hdat : ∀ ch ∈ d, ch ≠ '@' := by
    intro ch hch heq
    have hdig := hd ch hch
    rw [heq] at hdig
    exact absurd hdig (by decide)
  have hnoat : ∀ ch ∈ v, ch ≠ '@' := by
    rcases hv with rfl | rfl | rfl | rfl | rfl | rfl <;> intro ch hch
    · exact hdat ch hch
    · rcases List.mem_append.mp hch with h | h
      · have h' : ch ∈ ['5', '2'] := h
        simp at h'
        rcases h' with rfl | rfl <;> decide
      · exact hdat ch h
    · rcases List.mem_append.mp hch with h | h
      · have h' : ch ∈ ['5', '2', '1'] := h
        simp at h'
        rcases h' with rfl | rfl | rfl <;> decide
      · exact hdat ch h
    · rcases List.mem_cons.mp hch with rfl | h
      · decide
      · exact hdat ch h
    · rcases List.mem_cons.mp hch with rfl | h
      · decide
      · rcases List.mem_append.mp h with h | h
        · have h' : ch ∈ ['5', '2'] := h
          simp at h'
          rcases h' with rfl | rfl <;> decide
        · exact hdat ch h
    · rcases List.mem_cons.mp hch with rfl | h
      · decide
      · rcases List.mem_append.mp h with h | h
        · have h' : ch ∈ ['5', '2', '1'] := h
          simp at h'
          rcases h' with rfl | rfl | rfl <;> decide
        · exact hdat ch h
  have hgsub : hasSubstr v gUsMarker = false := hasSubstr_eq_false (str "g.us") rfl v hnoat
  simp only [handleMessage]
  rw [if_neg (by simp [hMe]), if_neg hBc, hres]
  rw [if_neg (by
    rcases hlenv with h | h | h <;>
      exact not_or.mpr ⟨fun h' => by rw [h'] at h; simp at h,
        not_or.mpr ⟨by omega, by omega⟩⟩)]
  rw [if_neg (by simp [hgsub]), hfind1]
  simp [updateLastContact]

def cCanonical : Contact :=
  { id := 7, name := str "Ana", email := str "ana@mail", phone := some (plus52 ++ str "5512345678"),
    category := str "cliente", leadSource := str "otro", tags := [], score := 0,
    lastContactDate := none, createdAt := 0, updatedAt := 0 }

def sWithCanonical : Store :=
  { contacts := [cCanonical], conversations := [], opportunities := [], nextId := 8 }

def eVariant : MsgEvent :=
  { fromMe := false, msgFrom := str "x@c.us", msgTo := [], msgId := str "m4",
    hasMedia := false, body := str "hola", waContactNumber := some (str "525512345678"),
    waContactName := none, waContactPushname := none }

/-- Witness for C3: the `52`-prefixed variant of a canonically stored phone
finds the stored contact and the handler inserts no second contact. -/
theorem c3_variant_reuse_check :
    findContactByPhone (str "525512345678") sWithCanonical = some cCanonical ∧
    (handleMessage envBase eVariant sWithCanonical).contacts.length =
      sWithCanonical.contacts.length :=
  c3_variant_reuse envBase eVariant sWithCanonical (str "5512345678") (str "525512345678")
    cCanonical (by decide) (by decide) (by decide) (by decide) rfl (by decide) rfl

/-- Claim C2: for an outbound event whose destination carries the `@lid`
opaque-id marker, the phone is recovered from the chat object's associated
contact (`message.getChat()` then `chat.getContact().number`), never from the
message's own contact accessor (the handler's result is independent of those
event fields); the persisted conversation is attached to the contact found or
created via that real phone; and if the chat lookup throws, the event is
discarded with no store write. -/
theorem c2_lid_recovery (env : Env) (e : MsgEvent) (s : Store)
    (hLid : hasSubstr e.msgTo lidMarker = true)
    (hMe : e.fromMe = true) (hBc : e.msgTo ≠ statusBroadcast) :
    (env.getChat = Except.error () → handleMessageCreate env e s = s) ∧
    (∀ x y z, handleMessageCreate env
        { e with waContactNumber := x, waContactName := y, waContactPushname := z } s
      = handleMessageCreate env e s) ∧
    (∀ chat n, env.getChat = Except.ok chat → chat.contactNumber = some n → n ≠ [] →
      (handleMessageCreate env e s = outboundContinue env e n (some chat) s ∧
       (∀ c, findContactByPhone n s = some c →
          ¬(cleanDigits n = [] ∨ (cleanDigits n).length < 10 ∨ 15 < (cleanDigits n).length) →
          hasSubstr n gUsMarker = false →
          (handleMessageCreate env e s).conversations = s.conversations ++
            [mkConv c.id (contentOf e (mediaDataOf env e)) saliente (mediaDataOf env e)
              env.now] ∧
          (handleMessageCreate env e s).contacts.length = s.contacts.length) ∧
       (findContactByPhone n s = none →
          ¬(cleanDigits n = [] ∨ (cleanDigits n).length < 10 ∨ 15 < (cleanDigits n).length) →
          hasSubstr n gUsMarker = false →
          ∃ newC, (handleMessageCreate env e s).contacts = s.contacts ++ [newC] ∧
            newC.phone = normalizePhoneToCanonical n ∧
            (handleMessageCreate env e s).conversations = s.conversations ++
              [mkConv newC.id (contentOf e (mediaDataOf env e)) saliente (mediaDataOf env e)
                env.now]))) := by
  refine ⟨?_, ?_, ?_⟩
  · intro hErr
    simp [handleMessageCreate, hMe, hBc, outboundPhoneAndChat, hLid, hErr]
  · intro x y z
    rfl
  · intro chat n hok hnum hne
    have hres : outboundPhoneAndChat env e = some (n, some chat) := by
      simp [outboundPhoneAndChat, hLid, hok, hnum, jsStr, jsOr2, hne]
    have h1 : handleMessageCreate env e s = outboundContinue env e n (some chat) s := by
      simp [handleMessageCreate, hMe, hBc, hres]
    refine ⟨h1, ?_, ?_⟩
    · intro c hf hGate hG
      rw [h1]
      constructor
      · simp [outboundContinue, hGate, hG, hf, mkConv]
      · simp [outboundContinue, hGate, hG, hf, updateLastContact]
    · intro hf hGate hG
      rw [h1]
      simp only [outboundContinue]
      rw [if_neg hGate, if_neg (by simp [hG]), hf]
      exact ⟨_, rfl, rfl, rfl⟩

def chatLid : ChatInfo :=
  { contactNumber := some (str "5512345678"), idUser := some (str "280358620774586"),
    name := some (str "Cliente") }

def envLid : Env := { envBase with getChat := Except.ok chatLid }

def eLid : MsgEvent :=
  { fromMe := true, msgFrom := [], msgTo := str "280358620774586@lid", msgId := str "m3",
    hasMedia := false, body := str "hola", waContactNumber := some (str "111"),
    waContactName := none, waContactPushname := none }

/-- Witness for C2: a concrete `@lid` outbound event with a stubbed chat
lookup returning the real phone `5512345678` creates the contact from that
phone (not from the opaque id) and attaches the conversation to it. -/
theorem c2_lid_recovery_check :
    ∃ newC, (handleMessageCreate envLid eLid sEmpty).contacts = sEmpty.contacts ++ [newC] ∧
      newC.phone = normalizePhoneToCanonical (str "5512345678") ∧
      (handleMessageCreate envLid eLid sEmpty).conversations = sEmpty.conversations ++
        [mkConv newC.id (contentOf eLid (mediaDataOf envLid eLid)) saliente
          (mediaDataOf envLid eLid) envLid.now] :=
  ((c2_lid_recovery envLid eLid sEmpty (by decide) rfl (by decide)).2.2 chatLid
    (str "5512345678") rfl rfl (by decide)).2.2 (by decide) (by decide) (by decide)

end Crm
